import Mathlib

/-!
Shallow embedding of the IMAPMessageFilter core
(`imapmessagefilter/filter_engine.py` and the `apply_filters` loop of
`imapmessagefilter/cli.py`) together with proofs about the rule model,
the condition evaluator, the rule matcher, and the action-application loop.
-/

namespace IMF

/-! ### Enumerations (filter_engine.py: FilterOperator, FilterAction, FilterField) -/

/-- `FilterOperator` of filter_engine.py. -/
inductive FilterOperator
  | contains
  | is
  | starts_with
  | ends_with
  | doesnt_contain
  | greater_than
  | less_than
  | equals
  | not_equals
  deriving DecidableEq, Repr

/-- `FilterAction` of filter_engine.py. -/
inductive FilterAction
  | move
  | delete
  | mark
  | copy
  deriving DecidableEq, Repr

/-- `FilterField` of filter_engine.py. -/
inductive FilterField
  | from_
  | to_
  | subject
  | body
  | date
  | size
  | cc
  | bcc
  | has_attachment
  deriving DecidableEq, Repr

/-- `FilterCondition` of filter_engine.py: field, operator and a string literal. -/
structure FilterCondition where
  field : FilterField
  operator : FilterOperator
  value : String
  deriving DecidableEq, Repr

/-- `FilterActionConfig` of filter_engine.py: a flat record with a `type` tag and
optional `folder` / `flag` payloads. -/
structure FilterActionConfig where
  type : FilterAction
  folder : Option String := none
  flag : Option String := none
  deriving DecidableEq, Repr

/-- `FilterRule` of filter_engine.py. -/
structure FilterRule where
  name : String
  enabled : Bool := true
  priority : Int := 1
  conditions : List FilterCondition
  actions : List FilterActionConfig
  deriving DecidableEq, Repr

/-- `MessageData` of filter_engine.py: optional values for each field.
`size` is typed `Optional[int]` and `has_attachment` `Optional[bool]` in the source. -/
structure MessageData where
  from_ : Option String := none
  to_ : Option String := none
  subject : Option String := none
  body : Option String := none
  date : Option String := none
  size : Option Int := none
  cc : Option String := none
  bcc : Option String := none
  has_attachment : Option Bool := none
  deriving DecidableEq, Repr

/-- The dynamic type of a Python field value as used by the evaluator:
a string, an int (`size`) or a bool (`has_attachment`). -/
inductive FieldValue
  | s : String → FieldValue
  | i : Int → FieldValue
  | b : Bool → FieldValue
  deriving DecidableEq, Repr

/-- `MessageData.get_field_value` of filter_engine.py. -/
def MessageData.get_field_value (m : MessageData) : FilterField → Option FieldValue
  | .from_ => m.from_.map FieldValue.s
  | .to_ => m.to_.map FieldValue.s
  | .subject => m.subject.map FieldValue.s
  | .body => m.body.map FieldValue.s
  | .date => m.date.map FieldValue.s
  | .size => m.size.map FieldValue.i
  | .cc => m.cc.map FieldValue.s
  | .bcc => m.bcc.map FieldValue.s
  | .has_attachment => m.has_attachment.map FieldValue.b

/-! ### Python primitives used by the evaluator -/

/-- Python `str.strip` whitespace set (the characters `int()` also ignores). -/
def isPySpace (c : Char) : Bool :=
  c = ' ' || c = '\t' || c = '\n' || c = '\r' || c = '\x0b' || c = '\x0c'

/-- Digits of a Python decimal integer literal after the first digit:
single underscores are allowed between digits (`int("1_0")` is valid,
`int("1__0")` and `int("1_")` are not). Accumulates the value. -/
def pyDigitsAux : Nat → List Char → Option Nat
  | acc, [] => some acc
  | acc, c :: t =>
    if c = '_' then
      match t with
      | [] => none
      | d :: t' => if d.isDigit then pyDigitsAux (acc * 10 + (d.toNat - 48)) t' else none
    else if c.isDigit then pyDigitsAux (acc * 10 + (c.toNat - 48)) t
    else none

/-- A non-empty run of decimal digits (with Python's underscore rule). -/
def pyDigits : List Char → Option Nat
  | [] => none
  | c :: t => if c.isDigit then pyDigitsAux (c.toNat - 48) t else none

/-- Python `int(s)` on a decimal string: optional surrounding whitespace,
optional sign, then digits; `none` models the `ValueError` the source
catches. (Non-ASCII digit forms are not modelled.) -/
def parsePyInt (s : String) : Option Int :=
  let cs := ((s.toList.dropWhile isPySpace).reverse.dropWhile isPySpace).reverse
  match cs with
  | '+' :: rest => (pyDigits rest).map (fun n => (n : Int))
  | '-' :: rest => (pyDigits rest).map (fun n => -(n : Int))
  | rest => (pyDigits rest).map (fun n => (n : Int))

/-- Python `int(field_value)` on an already-typed field value. -/
def intOfFieldValue : FieldValue → Option Int
  | .i n => some n
  | .b bb => some (if bb then 1 else 0)
  | .s str => parsePyInt str

/-- Python `bool(field_value)` (truthiness). -/
def pyBool : FieldValue → Bool
  | .b bb => bb
  | .i n => n ≠ 0
  | .s str => !str.isEmpty

/-- Python `str(field_value)`. -/
def pyStr : FieldValue → String
  | .s str => str
  | .i n => toString n
  | .b true => "True"
  | .b false => "False"

/-- Python `str.lower()` on one character (ASCII; non-ASCII case mappings are
not modelled). -/
def pyCharLower (c : Char) : Char :=
  if 'A' ≤ c ∧ c ≤ 'Z' then Char.ofNat (c.toNat + 32) else c

/-- Python `s.lower()` (ASCII). -/
def pyLower (s : String) : String :=
  ⟨s.toList.map pyCharLower⟩

/-- Boolean prefix test on character lists (Python `str.startswith` after
conversion to a list of characters). -/
def listStarts : List Char → List Char → Bool
  | [], _ => true
  | _ :: _, [] => false
  | a :: p, b :: l => a == b && listStarts p l

/-- Boolean substring test on character lists (Python `needle in haystack`). -/
def listHasSub (needle : List Char) : List Char → Bool
  | [] => needle.isEmpty
  | b :: t => listStarts needle (b :: t) || listHasSub needle t

/-- Python `needle in haystack` on strings. -/
def strHasSub (hay needle : String) : Bool :=
  listHasSub needle.toList hay.toList

/-- Python `hay.startswith(p)`. -/
def strStarts (hay p : String) : Bool :=
  listStarts p.toList hay.toList

/-- Python `hay.endswith(p)`. -/
def strEnds (hay p : String) : Bool :=
  listStarts p.toList.reverse hay.toList.reverse

/-! ### Condition evaluation (filter_engine.py: FilterEngine._evaluate_condition) -/

/-- The operators the numeric/boolean branch of `_evaluate_condition` accepts. -/
def numOps : List FilterOperator :=
  [.greater_than, .less_than, .equals, .not_equals]

/-- Integer comparison dispatch of the `size` branch. -/
def pyCompareInt (op : FilterOperator) (cur tgt : Int) : Bool :=
  match op with
  | .greater_than => cur > tgt
  | .less_than => cur < tgt
  | .equals => cur == tgt
  | .not_equals => cur != tgt
  | _ => false

/-- Boolean comparison dispatch of the `has_attachment` branch
(Python compares `bool` as the integers 0/1). -/
def pyCompareBool (op : FilterOperator) (cur tgt : Bool) : Bool :=
  pyCompareInt op (if cur then 1 else 0) (if tgt then 1 else 0)

/-- `FilterEngine._evaluate_condition` of filter_engine.py.
An absent field returns `False` at once; `size`/`has_attachment` take the
numeric/boolean branch (a `ValueError` from `int(condition.value)` is caught
and yields `False`); all other fields take the lowercased string branch;
every uncovered field/operator combination falls through to `False`. -/
def evaluate_condition (cond : FilterCondition) (m : MessageData) : Bool :=
  match m.get_field_value cond.field with
  | none => false
  | some fv =>
    if cond.field = .size ∨ cond.field = .has_attachment then
      if cond.operator ∈ numOps then
        if cond.field = .size then
          match parsePyInt cond.value, intOfFieldValue fv with
          | some tgt, some cur => pyCompareInt cond.operator cur tgt
          | _, _ => false
        else
          let tgt := pyLower cond.value ∈ ["true", "1", "yes"]
          pyCompareBool cond.operator (pyBool fv) tgt
      else false
    else
      let fieldStr := pyLower (pyStr fv)
      let condStr := pyLower cond.value
      match cond.operator with
      | .contains => strHasSub fieldStr condStr
      | .is => fieldStr == condStr
      | .starts_with => strStarts fieldStr condStr
      | .ends_with => strEnds fieldStr condStr
      | .doesnt_contain => !(strHasSub fieldStr condStr)
      | _ => false

/-- `FilterEngine._evaluate_conditions` of filter_engine.py: AND logic with
early exit. -/
def evaluate_conditions (conds : List FilterCondition) (m : MessageData) : Bool :=
  match conds with
  | [] => true
  | c :: rest => if evaluate_condition c m then evaluate_conditions rest m else false

/-! ### Rule matching (filter_engine.py: FilterEngine.match_message)

Python's `sorted(filters, key=lambda f: f.priority)` is a stable sort by
priority; it is embedded as an insertion sort that inserts each earlier
element in front of the later elements of equal priority. -/

/-- Insert a rule in front of the first element whose priority is not
smaller. -/
def orderedInsertRule (a : FilterRule) : List FilterRule → List FilterRule
  | [] => [a]
  | b :: l => if a.priority ≤ b.priority then a :: b :: l else b :: orderedInsertRule a l

/-- Stable sort by ascending `priority`
(Python `sorted(filters, key=lambda f: f.priority)`). -/
def sortByPriority : List FilterRule → List FilterRule
  | [] => []
  | b :: l => orderedInsertRule b (sortByPriority l)

/-- `FilterEngine.match_message` of filter_engine.py: walk the
priority-sorted rules, skip disabled ones, and append each rule whose
conditions all hold. -/
def match_message (filters : List FilterRule) (m : MessageData) : List FilterRule :=
  (sortByPriority filters).foldl
    (fun acc r =>
      if !r.enabled then acc
      else if evaluate_conditions r.conditions m then acc ++ [r] else acc)
    []

/-! ### Rule construction (filter_engine.py: pydantic field validators on
FilterActionConfig and FilterRule) -/

/-- Python truthiness of an `Optional[str]`: `None` and `""` are falsy. -/
def pyTruthyOptStr : Option String → Bool
  | none => false
  | some s => !s.isEmpty

/-- A raw input field of a pydantic model: either the key is absent from the
input — the field keeps its declared default and, `validate_default` being
unset, its field validators are skipped — or the key is present with an
optional string (`provided none` models an explicit `null`). -/
inductive RawField
  | omitted
  | provided (v : Option String)
  deriving DecidableEq, Repr

/-- The value the constructed model field receives (`None` is the declared
default of both `folder` and `flag`). -/
def RawField.value : RawField → Option String
  | .omitted => none
  | .provided v => v

/-- The `validate_folder` field validator of `FilterActionConfig`:
pydantic v2 runs it only when the `folder` key was provided; it then rejects
a falsy value for move/copy actions. -/
def validate_folder (t : FilterAction) : RawField → Bool
  | .omitted => true
  | .provided v =>
    if (t = .move ∨ t = .copy) ∧ pyTruthyOptStr v = false then false else true

/-- The `validate_flag` field validator of `FilterActionConfig`: run only
when the `flag` key was provided; it then rejects a falsy value for mark
actions. -/
def validate_flag (t : FilterAction) : RawField → Bool
  | .omitted => true
  | .provided v =>
    if t = .mark ∧ pyTruthyOptStr v = false then false else true

/-- Constructing a `FilterActionConfig` from raw input: the field validators
run in declaration order (`folder` before `flag`), each only when its key
was provided in the input. -/
def mkFilterActionConfig (t : FilterAction) (folder flag : RawField) :
    Except String FilterActionConfig :=
  if validate_folder t folder = false then
    .error "Folder is required for move/copy actions"
  else if validate_flag t flag = false then
    .error "Flag is required for mark actions"
  else
    .ok { type := t, folder := folder.value, flag := flag.value }

/-- Validate every raw action record in order, stopping at the first
rejected one. -/
def validateActions :
    List (FilterAction × RawField × RawField) →
      Except String (List FilterActionConfig)
  | [] => .ok []
  | a :: t =>
    match mkFilterActionConfig a.1 a.2.1 a.2.2 with
    | .error e => .error e
    | .ok b =>
      match validateActions t with
      | .error e => .error e
      | .ok bs => .ok (b :: bs)

/-- Constructing a `FilterRule` from raw data: pydantic first validates each
nested action record, then `validate_priority` (priority ≥ 1),
`validate_conditions` (non-empty) and `validate_actions` (non-empty). -/
def mkFilterRule (name : String) (enabled : Bool) (priority : Int)
    (conditions : List FilterCondition)
    (actions : List (FilterAction × RawField × RawField)) :
    Except String FilterRule :=
  match validateActions actions with
  | .error e => .error e
  | .ok acts =>
    if priority < 1 then .error "Priority must be 1 or greater"
    else if conditions.isEmpty then .error "At least one condition is required"
    else if acts.isEmpty then .error "At least one action is required"
    else .ok { name := name, enabled := enabled, priority := priority,
               conditions := conditions, actions := acts }

/-- The structural constraint on one raw action record that
`mkFilterActionConfig` actually enforces: each payload is checked only when
its key was provided in the input. -/
def actionOK (a : FilterAction × RawField × RawField) : Prop :=
  (∀ v, a.2.1 = RawField.provided v → (a.1 = .move ∨ a.1 = .copy) →
    ∃ s, v = some s ∧ s ≠ "") ∧
  (∀ v, a.2.2 = RawField.provided v → a.1 = .mark → ∃ s, v = some s ∧ s ≠ "")

/-! ### The action-application loop (cli.py: apply_filters)

The mail-store collaborator is abstracted as:
* `fetch : Nat → Option MessageData` — `fetch_message_envelope` plus the
  envelope-to-`MessageData` conversion; `none` models an id missing from the
  returned mapping (the loop's `continue`);
* `oracle : Nat → FilterActionConfig → Bool` — whether the IMAP calls of one
  action succeed (`true`) or raise an exception caught by that action's
  `try`/`except` (`false`; the mutating calls a failing action may have
  partially performed before raising are not tracked).

Mutating mail-store calls are recorded in an `ops` trace. -/

/-- A mutating mail-store operation invoked by the apply loop. -/
inductive MailOp
  | createFolderIfAbsent (folder : Option String)
  | moveMessage (msgId : Nat) (folder : Option String)
  | copyMessage (msgId : Nat) (folder : Option String)
  | deleteMessage (msgId : Nat)
  | markMessage (msgId : Nat) (flag : Option String)
  deriving DecidableEq, Repr

/-- The loop state of `apply_filters`: the four counters, the error list, and
the trace of mutating mail-store calls. The source keeps no counter for copy
actions. -/
structure RunState where
  processed : Nat := 0
  moved : Nat := 0
  deleted : Nat := 0
  marked : Nat := 0
  errors : List String := []
  ops : List MailOp := []
  deriving DecidableEq, Repr

/-- One action of one matching rule for one message
(the innermost body of `apply_filters`). In dry-run mode every branch only
prints; live mode performs the mail-store calls, bumps the branch's counter
(copy has none) on success, and appends one error on failure. -/
def apply_action (dryRun : Bool) (oracle : Nat → FilterActionConfig → Bool)
    (msgId : Nat) (st : RunState) (action : FilterActionConfig) : RunState :=
  match action.type with
  | .move =>
    if dryRun then st
    else if oracle msgId action then
      { st with moved := st.moved + 1,
                ops := st.ops ++ [.createFolderIfAbsent action.folder,
                                  .moveMessage msgId action.folder] }
    else { st with errors := st.errors ++ ["Failed to move message " ++ toString msgId] }
  | .delete =>
    if dryRun then st
    else if oracle msgId action then
      { st with deleted := st.deleted + 1,
                ops := st.ops ++ [.deleteMessage msgId] }
    else { st with errors := st.errors ++ ["Failed to delete message " ++ toString msgId] }
  | .mark =>
    if dryRun then st
    else if oracle msgId action then
      { st with marked := st.marked + 1,
                ops := st.ops ++ [.markMessage msgId action.flag] }
    else { st with errors := st.errors ++ ["Failed to mark message " ++ toString msgId] }
  | .copy =>
    if dryRun then st
    else if oracle msgId action then
      { st with ops := st.ops ++ [.createFolderIfAbsent action.folder,
                                  .copyMessage msgId action.folder] }
    else { st with errors := st.errors ++ ["Failed to copy message " ++ toString msgId] }

/-- The `--filter-name` restriction: `if filter_name:` is Python truthiness,
so `None` and `""` leave the matching rules unchanged. -/
def restrictByName (filterName : Option String) (rules : List FilterRule) :
    List FilterRule :=
  match filterName with
  | none => rules
  | some n => if n.isEmpty then rules else rules.filter (fun r => r.name == n)

/-- One iteration of the per-message loop of `apply_filters`: fetch the
envelope (skip the id when absent), match, restrict by name, and when any
rule matched bump `processed` and run every action of every matching rule. -/
def apply_message (dryRun : Bool) (oracle : Nat → FilterActionConfig → Bool)
    (fetch : Nat → Option MessageData) (filterName : Option String)
    (filters : List FilterRule) (st : RunState) (msgId : Nat) : RunState :=
  match fetch msgId with
  | none => st
  | some md =>
    let matching := restrictByName filterName (match_message filters md)
    if matching.isEmpty then st
    else
      let st1 := { st with processed := st.processed + 1 }
      matching.foldl (fun s r => r.actions.foldl (apply_action dryRun oracle msgId) s) st1

/-- `apply_filters` of cli.py, over a given batch of message ids. -/
def apply_filters (dryRun : Bool) (oracle : Nat → FilterActionConfig → Bool)
    (fetch : Nat → Option MessageData) (filterName : Option String)
    (filters : List FilterRule) (messageIds : List Nat) : RunState :=
  messageIds.foldl (apply_message dryRun oracle fetch filterName filters) {}

/-! ### Specification-side descriptions of one run (used to state the
theorems about `apply_filters`) -/

/-- Whether a message id has an envelope and at least one (possibly
name-restricted) matching rule. -/
def message_matches (fetch : Nat → Option MessageData) (filterName : Option String)
    (filters : List FilterRule) (msgId : Nat) : Bool :=
  match fetch msgId with
  | none => false
  | some md => !(restrictByName filterName (match_message filters md)).isEmpty

/-- The actions attempted for one message id, in execution order
(every action of every matching rule). -/
def message_actions (fetch : Nat → Option MessageData) (filterName : Option String)
    (filters : List FilterRule) (msgId : Nat) : List FilterActionConfig :=
  match fetch msgId with
  | none => []
  | some md =>
    let matching := restrictByName filterName (match_message filters md)
    if matching.isEmpty then [] else matching.flatMap (fun r => r.actions)

/-- The mutating mail-store calls a successful execution of one action
performs. -/
def ops_of (msgId : Nat) (a : FilterActionConfig) : List MailOp :=
  match a.type with
  | .move => [.createFolderIfAbsent a.folder, .moveMessage msgId a.folder]
  | .delete => [.deleteMessage msgId]
  | .mark => [.markMessage msgId a.flag]
  | .copy => [.createFolderIfAbsent a.folder, .copyMessage msgId a.folder]

/-- The mail-store calls one attempted action contributes to a live run. -/
def action_ops (oracle : Nat → FilterActionConfig → Bool) (msgId : Nat)
    (a : FilterActionConfig) : List MailOp :=
  if oracle msgId a then ops_of msgId a else []

/-- The error-list entry of one failed action. -/
def error_of (msgId : Nat) (a : FilterActionConfig) : String :=
  match a.type with
  | .move => "Failed to move message " ++ toString msgId
  | .delete => "Failed to delete message " ++ toString msgId
  | .mark => "Failed to mark message " ++ toString msgId
  | .copy => "Failed to copy message " ++ toString msgId

/-- The error entries one attempted action contributes to a live run. -/
def action_errors (oracle : Nat → FilterActionConfig → Bool) (msgId : Nat)
    (a : FilterActionConfig) : List String :=
  if oracle msgId a then [] else [error_of msgId a]

/-- How much one attempted action adds to the `moved` counter. -/
def action_moved (oracle : Nat → FilterActionConfig → Bool) (msgId : Nat)
    (a : FilterActionConfig) : Nat :=
  if a.type = .move ∧ oracle msgId a then 1 else 0

/-- How much one attempted action adds to the `deleted` counter. -/
def action_deleted (oracle : Nat → FilterActionConfig → Bool) (msgId : Nat)
    (a : FilterActionConfig) : Nat :=
  if a.type = .delete ∧ oracle msgId a then 1 else 0

/-- How much one attempted action adds to the `marked` counter. -/
def action_marked (oracle : Nat → FilterActionConfig → Bool) (msgId : Nat)
    (a : FilterActionConfig) : Nat :=
  if a.type = .mark ∧ oracle msgId a then 1 else 0

/-- The text fields of the data model (every field except `size` and
`has_attachment`). -/
def textFields : List FilterField :=
  [.from_, .to_, .subject, .body, .date, .cc, .bcc]

/-- The string-typed operators. -/
def stringOps : List FilterOperator :=
  [.contains, .is, .starts_with, .ends_with, .doesnt_contain]

/-! ### Lemmas about the string primitives -/

theorem listStarts_iff (p l : List Char) : listStarts p l = true ↔ p <+: l := by
  induction p generalizing l with
  | nil => simp [listStarts]
  | cons a p ih =>
    cases l with
    | nil => simp [listStarts]
    | cons b l => simp [listStarts, ih, List.cons_prefix_cons]

theorem listHasSub_iff (n h : List Char) : listHasSub n h = true ↔ n <:+: h := by
  induction h with
  | nil => simp [listHasSub, List.infix_nil]
  | cons b t ih => simp [listHasSub, listStarts_iff, ih, List.infix_cons_iff]

theorem strHasSub_iff (hay needle : String) :
    strHasSub hay needle = true ↔ needle.toList <:+: hay.toList := by
  rw [strHasSub, listHasSub_iff]

theorem strStarts_iff (hay p : String) :
    strStarts hay p = true ↔ p.toList <+: hay.toList := by
  rw [strStarts, listStarts_iff]

theorem strEnds_iff (hay p : String) :
    strEnds hay p = true ↔ p.toList <:+ hay.toList := by
  rw [strEnds, listStarts_iff, List.reverse_prefix]

theorem strHasSub_false_iff (hay needle : String) :
    strHasSub hay needle = false ↔ ¬ needle.toList <:+: hay.toList := by
  rw [← strHasSub_iff]
  cases strHasSub hay needle <;> simp

/-! ### Claim theorems about the condition evaluator -/

/-- C3: for every condition and every message, if the message's value for the
condition's referenced field is absent, `evaluate_condition` returns `false`,
for every operator including the negated operators `doesnt_contain` and
`not_equals`. -/
theorem absent_field_evaluates_false (c : FilterCondition) (m : MessageData)
    (h : m.get_field_value c.field = none) : evaluate_condition c m = false := by
  unfold evaluate_condition
  rw [h]

/-- Witness for C3: `doesnt_contain` on an absent `subject` is `false`. -/
theorem absent_field_evaluates_false_witness :
    evaluate_condition ⟨.subject, .doesnt_contain, "a"⟩ {} = false :=
  absent_field_evaluates_false ⟨.subject, .doesnt_contain, "a"⟩ {} rfl

/-- C7: a condition on the `size` field with operator `greater than`,
`less than`, `equals` or `not equals` compares the message size and the
parsed literal as integers, and an unparsable literal yields `false`
(the `ValueError` is caught; `evaluate_condition` is total, so it never
raises). -/
theorem size_condition_semantics (c : FilterCondition) (m : MessageData) (n : Int)
    (hf : c.field = .size) (hv : m.size = some n) :
    (∀ t : Int, parsePyInt c.value = some t →
      ((c.operator = .greater_than → (evaluate_condition c m = true ↔ n > t)) ∧
       (c.operator = .less_than → (evaluate_condition c m = true ↔ n < t)) ∧
       (c.operator = .equals → (evaluate_condition c m = true ↔ n = t)) ∧
       (c.operator = .not_equals → (evaluate_condition c m = true ↔ n ≠ t)))) ∧
    (parsePyInt c.value = none → evaluate_condition c m = false) := by
  constructor
  · intro t ht
    refine ⟨?_, ?_, ?_, ?_⟩ <;> intro hop <;>
      simp [evaluate_condition, hf, hop, MessageData.get_field_value, hv, numOps,
            intOfFieldValue, ht, pyCompareInt]
  · intro hn
    simp [evaluate_condition, hf, MessageData.get_field_value, hv, numOps,
          intOfFieldValue, hn, pyCompareInt]

/-- Witness for C7: `size greater than "1000000"` on a message of size
2000000 is `true`, and the same condition with the unparsable literal
`"10MB"` is `false`. -/
theorem size_condition_semantics_witness :
    evaluate_condition ⟨.size, .greater_than, "1000000"⟩ { size := some 2000000 } = true ∧
    evaluate_condition ⟨.size, .greater_than, "10MB"⟩ { size := some 2000000 } = false :=
  ⟨(((size_condition_semantics ⟨.size, .greater_than, "1000000"⟩
        { size := some 2000000 } 2000000 rfl rfl).1 1000000 (by decide)).1 rfl).mpr
      (by decide),
   (size_condition_semantics ⟨.size, .greater_than, "10MB"⟩
        { size := some 2000000 } 2000000 rfl rfl).2 (by decide)⟩

/-- C8: on a text field whose value is present, the string operators compare
the ASCII-lowercased strings: `contains` is a substring test,
`doesnt_contain` its negation, `is` equality, `starts with` / `ends with`
prefix / suffix tests. -/
theorem text_condition_semantics (c : FilterCondition) (m : MessageData) (s : String)
    (hf : c.field ∈ textFields) (hv : m.get_field_value c.field = some (.s s)) :
    (c.operator = .contains →
      (evaluate_condition c m = true ↔ (pyLower c.value).toList <:+: (pyLower s).toList)) ∧
    (c.operator = .doesnt_contain →
      (evaluate_condition c m = true ↔ ¬ (pyLower c.value).toList <:+: (pyLower s).toList)) ∧
    (c.operator = .is →
      (evaluate_condition c m = true ↔ pyLower s = pyLower c.value)) ∧
    (c.operator = .starts_with →
      (evaluate_condition c m = true ↔ (pyLower c.value).toList <+: (pyLower s).toList)) ∧
    (c.operator = .ends_with →
      (evaluate_condition c m = true ↔ (pyLower c.value).toList <:+ (pyLower s).toList)) := by
  have h1 : c.field ≠ FilterField.size := by
    intro h; rw [h] at hf; simp [textFields] at hf
  have h2 : c.field ≠ FilterField.has_attachment := by
    intro h; rw [h] at hf; simp [textFields] at hf
  refine ⟨?_, ?_, ?_, ?_, ?_⟩ <;> intro hop <;>
    simp [evaluate_condition, hv, h1, h2, hop, pyStr, strHasSub_iff, strHasSub_false_iff,
          strStarts_iff, strEnds_iff]

/-- Witness for C8: the spec's example
`evaluate({subject, contains, "IMPORTANT"}, {subject: "this is important"})`
is `true`. -/
theorem text_condition_semantics_witness :
    evaluate_condition ⟨.subject, .contains, "IMPORTANT"⟩
      { subject := some "this is important" } = true :=
  ((text_condition_semantics ⟨.subject, .contains, "IMPORTANT"⟩
      { subject := some "this is important" } "this is important"
      (by decide) rfl).1 rfl).mpr (by decide)

/-- C10: a string operator applied to `size` or `has_attachment`, or a
numeric operator applied to a text field, makes `evaluate_condition` return
`false` (no coercion, no error), even when the field value is present. -/
theorem incompatible_operator_false (c : FilterCondition) (m : MessageData)
    (h : ((c.field = .size ∨ c.field = .has_attachment) ∧ c.operator ∈ stringOps) ∨
         (c.field ∈ textFields ∧ c.operator ∈ numOps)) :
    evaluate_condition c m = false := by
  rcases h with ⟨hf, hop⟩ | ⟨hf, hop⟩
  · simp only [stringOps, List.mem_cons, List.not_mem_nil, or_false] at hop
    cases hgv : m.get_field_value c.field <;>
      rcases hop with hop | hop | hop | hop | hop <;>
        simp [evaluate_condition, hgv, hf, hop, numOps]
  · have h1 : c.field ≠ FilterField.size := by
      intro hx; rw [hx] at hf; simp [textFields] at hf
    have h2 : c.field ≠ FilterField.has_attachment := by
      intro hx; rw [hx] at hf; simp [textFields] at hf
    simp only [numOps, List.mem_cons, List.not_mem_nil, or_false] at hop
    cases hgv : m.get_field_value c.field <;>
      rcases hop with hop | hop | hop | hop <;>
        simp [evaluate_condition, hgv, h1, h2, hop]

/-- Witness for C10: `contains` on the numeric `size` field is `false` even
though the size is present and its decimal rendering contains the literal. -/
theorem incompatible_operator_false_witness :
    evaluate_condition ⟨.size, .contains, "5"⟩ { size := some 5 } = false :=
  incompatible_operator_false ⟨.size, .contains, "5"⟩ { size := some 5 }
    (Or.inl ⟨Or.inl rfl, by decide⟩)

/-! ### Lemmas about the rule matcher -/

/-- The predicate `match_message` effectively filters by: enabled and all
conditions hold. -/
def matchPred (m : MessageData) (r : FilterRule) : Bool :=
  r.enabled && evaluate_conditions r.conditions m

theorem match_loop_eq (m : MessageData) (l acc : List FilterRule) :
    l.foldl
      (fun acc r =>
        if !r.enabled then acc
        else if evaluate_conditions r.conditions m then acc ++ [r] else acc)
      acc
      = acc ++ l.filter (matchPred m) := by
  induction l generalizing acc with
  | nil => simp
  | cons r t ih =>
    rw [List.foldl_cons, List.filter_cons, ih]
    cases he : r.enabled <;> cases hc : evaluate_conditions r.conditions m <;>
      simp [matchPred, he, hc, List.append_assoc]

theorem match_message_eq (fs : List FilterRule) (m : MessageData) :
    match_message fs m = (sortByPriority fs).filter (matchPred m) := by
  rw [match_message, match_loop_eq]
  rfl

theorem mem_orderedInsertRule {r a : FilterRule} {l : List FilterRule} :
    r ∈ orderedInsertRule a l ↔ r = a ∨ r ∈ l := by
  induction l with
  | nil => simp [orderedInsertRule]
  | cons b t ih =>
    simp only [orderedInsertRule]
    split
    · simp [List.mem_cons]
    · simp only [List.mem_cons, ih]
      tauto

theorem mem_sortByPriority {r : FilterRule} {l : List FilterRule} :
    r ∈ sortByPriority l ↔ r ∈ l := by
  induction l with
  | nil => simp [sortByPriority]
  | cons b t ih => simp [sortByPriority, mem_orderedInsertRule, ih]

theorem evaluate_conditions_iff (conds : List FilterCondition) (m : MessageData) :
    evaluate_conditions conds m = true ↔ ∀ c ∈ conds, evaluate_condition c m = true := by
  induction conds with
  | nil => simp [evaluate_conditions]
  | cons c t ih =>
    simp only [evaluate_conditions]
    split <;> rename_i h <;> simp_all

theorem pairwise_orderedInsertRule {a : FilterRule} {l : List FilterRule}
    (h : l.Pairwise (fun x y => x.priority ≤ y.priority)) :
    (orderedInsertRule a l).Pairwise (fun x y => x.priority ≤ y.priority) := by
  induction l with
  | nil => simp [orderedInsertRule]
  | cons b t ih =>
    rcases List.pairwise_cons.mp h with ⟨hb, ht⟩
    simp only [orderedInsertRule]
    split
    · rename_i hab
      refine List.pairwise_cons.mpr ⟨fun y hy => ?_, h⟩
      rcases List.mem_cons.mp hy with rfl | hy
      · exact hab
      · exact le_trans hab (hb y hy)
    · rename_i hab
      push_neg at hab
      refine List.pairwise_cons.mpr ⟨fun y hy => ?_, ih ht⟩
      rcases mem_orderedInsertRule.mp hy with rfl | hy
      · exact le_of_lt hab
      · exact hb y hy

theorem pairwise_sortByPriority (l : List FilterRule) :
    (sortByPriority l).Pairwise (fun x y => x.priority ≤ y.priority) := by
  induction l with
  | nil => simp [sortByPriority]
  | cons b t ih => exact pairwise_orderedInsertRule ih

theorem filter_orderedInsertRule_pos {q : FilterRule → Bool} {a : FilterRule}
    (hq : q a = true)
    (hlow : ∀ b : FilterRule, b.priority < a.priority → q b = false)
    (l : List FilterRule) :
    (orderedInsertRule a l).filter q = a :: l.filter q := by
  induction l with
  | nil => simp [orderedInsertRule, hq]
  | cons b t ih =>
    simp only [orderedInsertRule]
    split
    · simp [List.filter_cons, hq]
    · rename_i hab
      push_neg at hab
      have hqb : q b = false := hlow b hab
      simp [List.filter_cons, hqb, ih]

theorem filter_orderedInsertRule_neg {q : FilterRule → Bool} {a : FilterRule}
    (hq : q a = false) (l : List FilterRule) :
    (orderedInsertRule a l).filter q = l.filter q := by
  induction l with
  | nil => simp [orderedInsertRule, hq]
  | cons b t ih =>
    simp only [orderedInsertRule]
    split
    · simp [List.filter_cons, hq]
    · simp [List.filter_cons, ih]

theorem filter_sortByPriority {q : FilterRule → Bool}
    (H : ∀ x y : FilterRule, q x = true → y.priority < x.priority → q y = false)
    (l : List FilterRule) :
    (sortByPriority l).filter q = l.filter q := by
  induction l with
  | nil => rfl
  | cons a t ih =>
    simp only [sortByPriority]
    cases hqa : q a
    · rw [filter_orderedInsertRule_neg hqa, ih]
      simp [List.filter_cons, hqa]
    · rw [filter_orderedInsertRule_pos hqa (fun b hb => H a b hqa hb), ih]
      simp [List.filter_cons, hqa]

/-! ### Claim theorems about the rule matcher -/

/-- C4: `match_message` returns exactly the enabled rules all of whose
conditions evaluate true on the message (conjunctive semantics); a disabled
rule or a rule with a false condition never appears. -/
theorem match_message_mem_iff (fs : List FilterRule) (m : MessageData) (r : FilterRule) :
    r ∈ match_message fs m ↔
      r ∈ fs ∧ r.enabled = true ∧ ∀ c ∈ r.conditions, evaluate_condition c m = true := by
  rw [match_message_eq, List.mem_filter, mem_sortByPriority]
  simp [matchPred, evaluate_conditions_iff, and_assoc]

/-- C5: the list returned by `match_message` is sorted by ascending rule
priority, and restricted to any one priority it equals the name-order filter
of the original rule set (ties preserve the rule set's original relative
order: the sort is stable). -/
theorem match_message_sorted_and_stable (fs : List FilterRule) (m : MessageData) :
    (match_message fs m).Pairwise (fun x y => x.priority ≤ y.priority) ∧
    ∀ p : Int, (match_message fs m).filter (fun r => r.priority == p)
      = fs.filter (fun r => r.priority == p && r.enabled
          && evaluate_conditions r.conditions m) := by
  constructor
  · rw [match_message_eq]
    exact List.Pairwise.sublist (List.filter_sublist _) (pairwise_sortByPriority fs)
  · intro p
    rw [match_message_eq, List.filter_filter]
    rw [filter_sortByPriority (q := fun r => (r.priority == p) && matchPred m r)]
    · refine List.filter_congr fun x _ => ?_
      simp [matchPred, Bool.and_assoc]
    · intro x y hx hlt
      have hxp : x.priority = p := by
        rw [Bool.and_eq_true] at hx
        exact eq_of_beq hx.1
      have hyne : y.priority ≠ p := by omega
      simp [hyne]

/-! ### Lemmas and claim theorem about rule validation -/

theorem pyTruthy_iff (o : Option String) :
    pyTruthyOptStr o = true ↔ ∃ s, o = some s ∧ s ≠ "" := by
  cases o <;> simp [pyTruthyOptStr, ← String.isEmpty_iff, Bool.not_eq_true]

theorem validate_folder_eq_true_iff (t : FilterAction) (f : RawField) :
    validate_folder t f = true ↔
      ∀ v, f = RawField.provided v → (t = .move ∨ t = .copy) →
        pyTruthyOptStr v = true := by
  cases f with
  | omitted => simp [validate_folder]
  | provided v =>
    by_cases hmc : t = FilterAction.move ∨ t = FilterAction.copy
    · cases hv : pyTruthyOptStr v <;> simp [validate_folder, hmc, hv]
    · simp [validate_folder, hmc]

theorem validate_flag_eq_true_iff (t : FilterAction) (f : RawField) :
    validate_flag t f = true ↔
      ∀ v, f = RawField.provided v → t = .mark → pyTruthyOptStr v = true := by
  cases f with
  | omitted => simp [validate_flag]
  | provided v =>
    by_cases hmk : t = FilterAction.mark
    · cases hv : pyTruthyOptStr v <;> simp [validate_flag, hmk, hv]
    · simp [validate_flag, hmk]

theorem mkFilterActionConfig_isOk_iff
    (a : FilterAction × RawField × RawField) :
    (mkFilterActionConfig a.1 a.2.1 a.2.2).isOk = true ↔ actionOK a := by
  obtain ⟨t, folder, flag⟩ := a
  unfold mkFilterActionConfig actionOK
  split_ifs with h1 h2
  · simp only [Except.isOk, Except.toBool]
    constructor
    · intro h; simp at h
    · rintro ⟨hfold, -⟩
      have hv : validate_folder t folder = true :=
        (validate_folder_eq_true_iff t folder).mpr
          (fun v hveq hmc => (pyTruthy_iff v).mpr (hfold v hveq hmc))
      rw [hv] at h1
      simp at h1
  · simp only [Except.isOk, Except.toBool]
    constructor
    · intro h; simp at h
    · rintro ⟨-, hflag⟩
      have hv : validate_flag t flag = true :=
        (validate_flag_eq_true_iff t flag).mpr
          (fun v hveq hmk => (pyTruthy_iff v).mpr (hflag v hveq hmk))
      rw [hv] at h2
      simp at h2
  · have hf : validate_folder t folder = true := by
      cases hx : validate_folder t folder
      · exact absurd hx h1
      · rfl
    have hg : validate_flag t flag = true := by
      cases hx : validate_flag t flag
      · exact absurd hx h2
      · rfl
    constructor
    · intro _
      exact ⟨fun v hveq hmc =>
          (pyTruthy_iff v).mp ((validate_folder_eq_true_iff t folder).mp hf v hveq hmc),
        fun v hveq hmk =>
          (pyTruthy_iff v).mp ((validate_flag_eq_true_iff t flag).mp hg v hveq hmk)⟩
    · intro _; rfl

theorem validateActions_isOk_iff
    (as : List (FilterAction × RawField × RawField)) :
    (validateActions as).isOk = true ↔ ∀ a ∈ as, actionOK a := by
  induction as with
  | nil => simp [validateActions, Except.isOk, Except.toBool]
  | cons a t ih =>
    rw [List.forall_mem_cons, ← mkFilterActionConfig_isOk_iff a, ← ih]
    simp only [validateActions]
    cases hma : mkFilterActionConfig a.1 a.2.1 a.2.2 <;>
      cases hvt : validateActions t <;>
        simp [Except.isOk, Except.toBool]

theorem validateActions_length
    {as : List (FilterAction × RawField × RawField)}
    {bs : List FilterActionConfig} (h : validateActions as = .ok bs) :
    bs.length = as.length := by
  induction as generalizing bs with
  | nil =>
    simp only [validateActions] at h
    cases h
    rfl
  | cons a t ih =>
    simp only [validateActions] at h
    cases hma : mkFilterActionConfig a.1 a.2.1 a.2.2 <;> rw [hma] at h
    · cases h
    · cases hvt : validateActions t <;> rw [hvt] at h
      · cases h
      · cases h
        simp [ih hvt]

/-- The acceptance condition `mkFilterRule` actually enforces: priority at
least 1, non-empty conditions and actions, and — only for action payload
keys that were provided in the input — a truthy folder for move/copy and a
truthy flag for mark. -/
theorem mkFilterRule_isOk_iff (name : String) (enabled : Bool) (priority : Int)
    (conditions : List FilterCondition)
    (actions : List (FilterAction × RawField × RawField)) :
    (mkFilterRule name enabled priority conditions actions).isOk = true ↔
      (1 ≤ priority ∧ conditions ≠ [] ∧ actions ≠ [] ∧ ∀ a ∈ actions, actionOK a) := by
  unfold mkFilterRule
  cases hva : validateActions actions with
  | error e =>
    have hno : ¬ ∀ a ∈ actions, actionOK a := by
      rw [← validateActions_isOk_iff, hva]
      simp [Except.isOk, Except.toBool]
    constructor
    · intro h; simp [Except.isOk, Except.toBool] at h
    · rintro ⟨-, -, -, hA⟩; exact absurd hA hno
  | ok acts =>
    have hall : ∀ a ∈ actions, actionOK a := by
      rw [← validateActions_isOk_iff, hva]; rfl
    have hlen : acts.length = actions.length := validateActions_length hva
    have hae : acts = [] ↔ actions = [] := by
      rw [← List.length_eq_zero, ← List.length_eq_zero, hlen]
    simp only [Except.isOk, Except.toBool]
    by_cases h1 : priority < 1
    · rw [if_pos h1]
      constructor
      · intro h; simp [Except.isOk, Except.toBool] at h
      · rintro ⟨hp, -, -, -⟩; exfalso; omega
    · by_cases h2 : conditions.isEmpty = true
      · rw [if_neg h1, if_pos h2]
        constructor
        · intro h; simp [Except.isOk, Except.toBool] at h
        · rintro ⟨-, hc, -, -⟩; exact absurd (List.isEmpty_iff.mp h2) hc
      · by_cases h3 : acts.isEmpty = true
        · rw [if_neg h1, if_neg h2, if_pos h3]
          constructor
          · intro h; simp [Except.isOk, Except.toBool] at h
          · rintro ⟨-, -, hA, -⟩; exact absurd (hae.mp (List.isEmpty_iff.mp h3)) hA
        · rw [if_neg h1, if_neg h2, if_neg h3]
          constructor
          · intro _
            refine ⟨by omega, ?_, ?_, hall⟩
            · intro hc; exact h2 (by simp [hc])
            · intro hA; exact h3 (by simp [hae.mpr hA])
          · intro _; rfl

/-- C9 (code bug): the claim — and the validators' own docstrings and error
messages — require rejecting a Move/Copy action without a non-empty folder
and a Mark action without a non-empty flag, but pydantic v2 does not run
`validate_folder` / `validate_flag` on a field whose key is absent from the
input (its default is used and `validate_default` is unset), so the program
accepts `{type: move}` with no folder key and `{type: mark}` with no flag
key; an explicitly provided falsy payload is still rejected. -/
theorem omitted_payload_key_accepted :
    mkFilterRule "r" true 1 [⟨.subject, .contains, "x"⟩]
        [(.move, .omitted, .omitted)]
      = .ok { name := "r", enabled := true, priority := 1,
              conditions := [⟨.subject, .contains, "x"⟩],
              actions := [{ type := .move, folder := none, flag := none }] } ∧
    mkFilterRule "r" true 1 [⟨.subject, .contains, "x"⟩]
        [(.mark, .omitted, .omitted)]
      = .ok { name := "r", enabled := true, priority := 1,
              conditions := [⟨.subject, .contains, "x"⟩],
              actions := [{ type := .mark, folder := none, flag := none }] } ∧
    (mkFilterRule "r" true 1 [⟨.subject, .contains, "x"⟩]
        [(.move, .provided none, .omitted)]).isOk = false ∧
    (mkFilterRule "r" true 1 [⟨.subject, .contains, "x"⟩]
        [(.move, .provided (some ""), .omitted)]).isOk = false ∧
    (mkFilterRule "r" true 1 [⟨.subject, .contains, "x"⟩]
        [(.mark, .omitted, .provided none)]).isOk = false := by
  refine ⟨rfl, rfl, rfl, rfl, rfl⟩

/-! ### Lemmas about the application loop -/

theorem foldl_list_delta {α β : Type} (f : RunState → α → RunState)
    (proj : RunState → List β) (g : α → List β)
    (h : ∀ st a, proj (f st a) = proj st ++ g a) :
    ∀ (l : List α) (st : RunState), proj (l.foldl f st) = proj st ++ l.flatMap g := by
  intro l
  induction l with
  | nil => intro st; simp
  | cons a t ih =>
    intro st
    rw [List.foldl_cons, ih, h, List.flatMap_cons, List.append_assoc]

theorem foldl_nat_delta {α : Type} (f : RunState → α → RunState)
    (proj : RunState → Nat) (g : α → Nat)
    (h : ∀ st a, proj (f st a) = proj st + g a) :
    ∀ (l : List α) (st : RunState), proj (l.foldl f st) = proj st + (l.map g).sum := by
  intro l
  induction l with
  | nil => intro st; simp
  | cons a t ih =>
    intro st
    rw [List.foldl_cons, ih, h, List.map_cons, List.sum_cons]
    omega

theorem foldl_pres {α γ : Type} (f : RunState → α → RunState)
    (proj : RunState → γ) (h : ∀ st a, proj (f st a) = proj st) :
    ∀ (l : List α) (st : RunState), proj (l.foldl f st) = proj st := by
  intro l
  induction l with
  | nil => intro st; rfl
  | cons a t ih => intro st; rw [List.foldl_cons, ih, h]

theorem apply_action_true (o : Nat → FilterActionConfig → Bool) (i : Nat)
    (st : RunState) (a : FilterActionConfig) : apply_action true o i st a = st := by
  obtain ⟨t, f, g⟩ := a
  cases t <;> rfl

theorem apply_action_processed (d : Bool) (o : Nat → FilterActionConfig → Bool) (i : Nat)
    (st : RunState) (a : FilterActionConfig) :
    (apply_action d o i st a).processed = st.processed := by
  obtain ⟨t, f, g⟩ := a
  cases t <;> cases d <;> simp [apply_action] <;> split <;> rfl

theorem apply_action_ops (o : Nat → FilterActionConfig → Bool) (i : Nat)
    (st : RunState) (a : FilterActionConfig) :
    (apply_action false o i st a).ops = st.ops ++ action_ops o i a := by
  obtain ⟨t, f, g⟩ := a
  cases t <;> simp [apply_action] <;> split <;> rename_i ho <;>
    simp [action_ops, ops_of, ho]

theorem apply_action_errors (o : Nat → FilterActionConfig → Bool) (i : Nat)
    (st : RunState) (a : FilterActionConfig) :
    (apply_action false o i st a).errors = st.errors ++ action_errors o i a := by
  obtain ⟨t, f, g⟩ := a
  cases t <;> simp [apply_action] <;> split <;> rename_i ho <;>
    simp [action_errors, error_of, ho]

theorem apply_action_moved (o : Nat → FilterActionConfig → Bool) (i : Nat)
    (st : RunState) (a : FilterActionConfig) :
    (apply_action false o i st a).moved = st.moved + action_moved o i a := by
  obtain ⟨t, f, g⟩ := a
  cases t <;> simp [apply_action] <;> split <;> rename_i ho <;>
    simp [action_moved, ho]

theorem apply_action_deleted (o : Nat → FilterActionConfig → Bool) (i : Nat)
    (st : RunState) (a : FilterActionConfig) :
    (apply_action false o i st a).deleted = st.deleted + action_deleted o i a := by
  obtain ⟨t, f, g⟩ := a
  cases t <;> simp [apply_action] <;> split <;> rename_i ho <;>
    simp [action_deleted, ho]

theorem apply_action_marked (o : Nat → FilterActionConfig → Bool) (i : Nat)
    (st : RunState) (a : FilterActionConfig) :
    (apply_action false o i st a).marked = st.marked + action_marked o i a := by
  obtain ⟨t, f, g⟩ := a
  cases t <;> simp [apply_action] <;> split <;> rename_i ho <;>
    simp [action_marked, ho]

theorem rules_foldl_delta {β : Type} (o : Nat → FilterActionConfig → Bool) (i : Nat)
    (proj : RunState → List β) (g : FilterActionConfig → List β)
    (h : ∀ st a, proj (apply_action false o i st a) = proj st ++ g a)
    (l : List FilterRule) (st : RunState) :
    proj (l.foldl (fun s r => r.actions.foldl (apply_action false o i) s) st)
      = proj st ++ (l.flatMap (fun r => r.actions)).flatMap g := by
  induction l generalizing st with
  | nil => simp
  | cons r t ih =>
    rw [List.foldl_cons, ih, foldl_list_delta _ _ _ h, List.flatMap_cons,
        List.flatMap_append, List.append_assoc]

theorem rules_foldl_nat (o : Nat → FilterActionConfig → Bool) (i : Nat)
    (proj : RunState → Nat) (g : FilterActionConfig → Nat)
    (h : ∀ st a, proj (apply_action false o i st a) = proj st + g a)
    (l : List FilterRule) (st : RunState) :
    proj (l.foldl (fun s r => r.actions.foldl (apply_action false o i) s) st)
      = proj st + ((l.flatMap (fun r => r.actions)).map g).sum := by
  induction l generalizing st with
  | nil => simp
  | cons r t ih =>
    rw [List.foldl_cons, ih, foldl_nat_delta _ _ _ h, List.flatMap_cons,
        List.map_append, List.sum_append]
    omega

theorem rules_foldl_pres {γ : Type} (d : Bool) (o : Nat → FilterActionConfig → Bool) (i : Nat)
    (proj : RunState → γ) (h : ∀ st a, proj (apply_action d o i st a) = proj st)
    (l : List FilterRule) (st : RunState) :
    proj (l.foldl (fun s r => r.actions.foldl (apply_action d o i) s) st) = proj st := by
  induction l generalizing st with
  | nil => rfl
  | cons r t ih => rw [List.foldl_cons, ih, foldl_pres _ _ h]

theorem foldl_apply_action_true (o : Nat → FilterActionConfig → Bool) (i : Nat)
    (l : List FilterActionConfig) (st : RunState) :
    l.foldl (apply_action true o i) st = st := by
  induction l generalizing st with
  | nil => rfl
  | cons a t ih => rw [List.foldl_cons, apply_action_true, ih]

theorem rules_foldl_true (o : Nat → FilterActionConfig → Bool) (i : Nat)
    (l : List FilterRule) (st : RunState) :
    l.foldl (fun s r => r.actions.foldl (apply_action true o i) s) st = st := by
  induction l generalizing st with
  | nil => rfl
  | cons r t ih => rw [List.foldl_cons, foldl_apply_action_true, ih]

theorem apply_message_true_eq (o : Nat → FilterActionConfig → Bool)
    (fetch : Nat → Option MessageData) (fn : Option String) (fs : List FilterRule)
    (st : RunState) (i : Nat) :
    apply_message true o fetch fn fs st i
      = { st with processed :=
            st.processed + if message_matches fetch fn fs i then 1 else 0 } := by
  unfold apply_message message_matches
  cases hf : fetch i with
  | none => simp
  | some md =>
    by_cases hm : (restrictByName fn (match_message fs md)).isEmpty = true
    · simp [hm]
    · simp only [hm, Bool.false_eq_true, if_false, rules_foldl_true]
      simp [hm]

theorem apply_message_processed (d : Bool) (o : Nat → FilterActionConfig → Bool)
    (fetch : Nat → Option MessageData) (fn : Option String) (fs : List FilterRule)
    (st : RunState) (i : Nat) :
    (apply_message d o fetch fn fs st i).processed
      = st.processed + if message_matches fetch fn fs i then 1 else 0 := by
  unfold apply_message message_matches
  cases hf : fetch i with
  | none => simp
  | some md =>
    by_cases hm : (restrictByName fn (match_message fs md)).isEmpty = true
    · simp [hm]
    · simp only [hm, Bool.false_eq_true, if_false]
      rw [rules_foldl_pres d o i RunState.processed
            (fun st a => apply_action_processed d o i st a)]
      simp [hm]

theorem apply_message_ops (o : Nat → FilterActionConfig → Bool)
    (fetch : Nat → Option MessageData) (fn : Option String) (fs : List FilterRule)
    (st : RunState) (i : Nat) :
    (apply_message false o fetch fn fs st i).ops
      = st.ops ++ (message_actions fetch fn fs i).flatMap (action_ops o i) := by
  unfold apply_message message_actions
  cases hf : fetch i with
  | none => simp
  | some md =>
    by_cases hm : (restrictByName fn (match_message fs md)).isEmpty = true
    · simp [hm]
    · simp only [hm, Bool.false_eq_true, if_false]
      rw [rules_foldl_delta o i RunState.ops (action_ops o i)
            (fun st a => apply_action_ops o i st a)]

theorem apply_message_errors (o : Nat → FilterActionConfig → Bool)
    (fetch : Nat → Option MessageData) (fn : Option String) (fs : List FilterRule)
    (st : RunState) (i : Nat) :
    (apply_message false o fetch fn fs st i).errors
      = st.errors ++ (message_actions fetch fn fs i).flatMap (action_errors o i) := by
  unfold apply_message message_actions
  cases hf : fetch i with
  | none => simp
  | some md =>
    by_cases hm : (restrictByName fn (match_message fs md)).isEmpty = true
    · simp [hm]
    · simp only [hm, Bool.false_eq_true, if_false]
      rw [rules_foldl_delta o i RunState.errors (action_errors o i)
            (fun st a => apply_action_errors o i st a)]

theorem apply_message_moved (o : Nat → FilterActionConfig → Bool)
    (fetch : Nat → Option MessageData) (fn : Option String) (fs : List FilterRule)
    (st : RunState) (i : Nat) :
    (apply_message false o fetch fn fs st i).moved
      = st.moved + ((message_actions fetch fn fs i).map (action_moved o i)).sum := by
  unfold apply_message message_actions
  cases hf : fetch i with
  | none => simp
  | some md =>
    by_cases hm : (restrictByName fn (match_message fs md)).isEmpty = true
    · simp [hm]
    · simp only [hm, Bool.false_eq_true, if_false]
      rw [rules_foldl_nat o i RunState.moved (action_moved o i)
            (fun st a => apply_action_moved o i st a)]

theorem apply_message_deleted (o : Nat → FilterActionConfig → Bool)
    (fetch : Nat → Option MessageData) (fn : Option String) (fs : List FilterRule)
    (st : RunState) (i : Nat) :
    (apply_message false o fetch fn fs st i).deleted
      = st.deleted + ((message_actions fetch fn fs i).map (action_deleted o i)).sum := by
  unfold apply_message message_actions
  cases hf : fetch i with
  | none => simp
  | some md =>
    by_cases hm : (restrictByName fn (match_message fs md)).isEmpty = true
    · simp [hm]
    · simp only [hm, Bool.false_eq_true, if_false]
      rw [rules_foldl_nat o i RunState.deleted (action_deleted o i)
            (fun st a => apply_action_deleted o i st a)]

theorem apply_message_marked (o : Nat → FilterActionConfig → Bool)
    (fetch : Nat → Option MessageData) (fn : Option String) (fs : List FilterRule)
    (st : RunState) (i : Nat) :
    (apply_message false o fetch fn fs st i).marked
      = st.marked + ((message_actions fetch fn fs i).map (action_marked o i)).sum := by
  unfold apply_message message_actions
  cases hf : fetch i with
  | none => simp
  | some md =>
    by_cases hm : (restrictByName fn (match_message fs md)).isEmpty = true
    · simp [hm]
    · simp only [hm, Bool.false_eq_true, if_false]
      rw [rules_foldl_nat o i RunState.marked (action_marked o i)
            (fun st a => apply_action_marked o i st a)]

theorem sum_map_ite_eq_countP {α : Type} (p : α → Bool) (l : List α) :
    (l.map (fun i => if p i = true then 1 else 0)).sum = l.countP p := by
  induction l with
  | nil => rfl
  | cons a t ih =>
    rw [List.map_cons, List.sum_cons, List.countP_cons, ih]
    cases hp : p a <;> simp [Nat.add_comm]

theorem apply_filters_processed (d : Bool) (o : Nat → FilterActionConfig → Bool)
    (fetch : Nat → Option MessageData) (fn : Option String) (fs : List FilterRule)
    (ids : List Nat) :
    (apply_filters d o fetch fn fs ids).processed
      = ids.countP (message_matches fetch fn fs) := by
  have h := foldl_nat_delta (apply_message d o fetch fn fs) RunState.processed
      (fun i => if message_matches fetch fn fs i = true then 1 else 0)
      (fun st i => apply_message_processed d o fetch fn fs st i) ids {}
  rw [apply_filters, h, sum_map_ite_eq_countP]
  simp

theorem apply_filters_ops (o : Nat → FilterActionConfig → Bool)
    (fetch : Nat → Option MessageData) (fn : Option String) (fs : List FilterRule)
    (ids : List Nat) :
    (apply_filters false o fetch fn fs ids).ops
      = ids.flatMap (fun i => (message_actions fetch fn fs i).flatMap (action_ops o i)) := by
  have h := foldl_list_delta (apply_message false o fetch fn fs) RunState.ops
      (fun i => (message_actions fetch fn fs i).flatMap (action_ops o i))
      (fun st i => apply_message_ops o fetch fn fs st i) ids {}
  rw [apply_filters, h]
  rfl

theorem apply_filters_errors (o : Nat → FilterActionConfig → Bool)
    (fetch : Nat → Option MessageData) (fn : Option String) (fs : List FilterRule)
    (ids : List Nat) :
    (apply_filters false o fetch fn fs ids).errors
      = ids.flatMap (fun i => (message_actions fetch fn fs i).flatMap (action_errors o i)) := by
  have h := foldl_list_delta (apply_message false o fetch fn fs) RunState.errors
      (fun i => (message_actions fetch fn fs i).flatMap (action_errors o i))
      (fun st i => apply_message_errors o fetch fn fs st i) ids {}
  rw [apply_filters, h]
  rfl

theorem apply_filters_moved (o : Nat → FilterActionConfig → Bool)
    (fetch : Nat → Option MessageData) (fn : Option String) (fs : List FilterRule)
    (ids : List Nat) :
    (apply_filters false o fetch fn fs ids).moved
      = (ids.map (fun i => ((message_actions fetch fn fs i).map (action_moved o i)).sum)).sum := by
  have h := foldl_nat_delta (apply_message false o fetch fn fs) RunState.moved
      (fun i => ((message_actions fetch fn fs i).map (action_moved o i)).sum)
      (fun st i => apply_message_moved o fetch fn fs st i) ids {}
  rw [apply_filters, h]
  simp

theorem apply_filters_deleted (o : Nat → FilterActionConfig → Bool)
    (fetch : Nat → Option MessageData) (fn : Option String) (fs : List FilterRule)
    (ids : List Nat) :
    (apply_filters false o fetch fn fs ids).deleted
      = (ids.map (fun i => ((message_actions fetch fn fs i).map (action_deleted o i)).sum)).sum := by
  have h := foldl_nat_delta (apply_message false o fetch fn fs) RunState.deleted
      (fun i => ((message_actions fetch fn fs i).map (action_deleted o i)).sum)
      (fun st i => apply_message_deleted o fetch fn fs st i) ids {}
  rw [apply_filters, h]
  simp

theorem apply_filters_marked (o : Nat → FilterActionConfig → Bool)
    (fetch : Nat → Option MessageData) (fn : Option String) (fs : List FilterRule)
    (ids : List Nat) :
    (apply_filters false o fetch fn fs ids).marked
      = (ids.map (fun i => ((message_actions fetch fn fs i).map (action_marked o i)).sum)).sum := by
  have h := foldl_nat_delta (apply_message false o fetch fn fs) RunState.marked
      (fun i => ((message_actions fetch fn fs i).map (action_marked o i)).sum)
      (fun st i => apply_message_marked o fetch fn fs st i) ids {}
  rw [apply_filters, h]
  simp

theorem apply_filters_true_ops (o : Nat → FilterActionConfig → Bool)
    (fetch : Nat → Option MessageData) (fn : Option String) (fs : List FilterRule)
    (ids : List Nat) :
    (apply_filters true o fetch fn fs ids).ops = [] := by
  have h := foldl_pres (apply_message true o fetch fn fs) RunState.ops
      (fun st i => by rw [apply_message_true_eq]) ids {}
  rw [apply_filters, h]

/-! ### Claim theorems about the application loop -/

/-- C1: a dry run invokes no mutating mail-store operation (its trace of
`createFolderIfAbsent` / `moveMessage` / `copyMessage` / `deleteMessage` /
`markMessage` calls is empty), and its `processed` count equals the
`processed` count of a live run over the same message ids, envelopes and
rule set, for every action-failure behaviour of the live run. -/
theorem dry_run_no_mutations_same_processed (o : Nat → FilterActionConfig → Bool)
    (fetch : Nat → Option MessageData) (fn : Option String) (fs : List FilterRule)
    (ids : List Nat) :
    (apply_filters true o fetch fn fs ids).ops = [] ∧
    (apply_filters true o fetch fn fs ids).processed
      = (apply_filters false o fetch fn fs ids).processed := by
  refine ⟨apply_filters_true_ops o fetch fn fs ids, ?_⟩
  rw [apply_filters_processed, apply_filters_processed]

/-- C6: in a live run the per-action failures (described by the oracle) are
isolated: `processed` counts exactly the message ids with an envelope and at
least one matching rule, independent of the oracle; the error list contains
exactly one entry per failed attempted action, in attempt order; the
mail-store trace contains exactly the calls of the successful attempted
actions — so one failing action never prevents the remaining actions,
rules or messages from being attempted. -/
theorem action_failure_isolation (o : Nat → FilterActionConfig → Bool)
    (fetch : Nat → Option MessageData) (fn : Option String) (fs : List FilterRule)
    (ids : List Nat) :
    (apply_filters false o fetch fn fs ids).processed
      = ids.countP (message_matches fetch fn fs) ∧
    (apply_filters false o fetch fn fs ids).errors
      = ids.flatMap (fun i => (message_actions fetch fn fs i).flatMap (action_errors o i)) ∧
    (apply_filters false o fetch fn fs ids).ops
      = ids.flatMap (fun i => (message_actions fetch fn fs i).flatMap (action_ops o i)) :=
  ⟨apply_filters_processed false o fetch fn fs ids,
   apply_filters_errors o fetch fn fs ids,
   apply_filters_ops o fetch fn fs ids⟩

/-- A rule whose single action copies the matching message to the folder
"Reports" (used to exhibit the missing copy counter). -/
def copyRule : FilterRule :=
  { name := "copy-reports", priority := 1,
    conditions := [⟨.subject, .contains, "report"⟩],
    actions := [{ type := .copy, folder := some "Reports" }] }

/-- A one-message mailbox whose message 1 matches `copyRule`. -/
def fetchReport : Nat → Option MessageData := fun i =>
  if i = 1 then some { subject := some "Quarterly report" } else none

/-- C2 counterexample: a live run in which one Copy action executes
successfully (the trace shows `createFolderIfAbsent` then `copyMessage`)
returns a summary whose only fields are `processed`, `moved`, `deleted`,
`marked` and `errors` — `processed` is 1 and every other counter is 0, so no
"copied" count exists, is incremented, or is reported. -/
theorem copy_not_counted_cex :
    apply_filters false (fun _ _ => true) fetchReport none [copyRule] [1]
      = { processed := 1, moved := 0, deleted := 0, marked := 0, errors := [],
          ops := [.createFolderIfAbsent (some "Reports"),
                  .copyMessage 1 (some "Reports")] } := by
  decide

/-- C2 (amended): a live run reports counts of processed, moved, deleted and
marked messages plus the complete ordered error list; the moved / deleted /
marked counters count exactly the successful move / delete / mark actions,
and a successfully executed Copy action performs its mail-store calls (they
appear in the trace) but increments no counter: the summary carries no
copied count. -/
theorem run_counts_decomposition (o : Nat → FilterActionConfig → Bool)
    (fetch : Nat → Option MessageData) (fn : Option String) (fs : List FilterRule)
    (ids : List Nat) :
    (apply_filters false o fetch fn fs ids).moved
      = (ids.map (fun i =>
          ((message_actions fetch fn fs i).map (action_moved o i)).sum)).sum ∧
    (apply_filters false o fetch fn fs ids).deleted
      = (ids.map (fun i =>
          ((message_actions fetch fn fs i).map (action_deleted o i)).sum)).sum ∧
    (apply_filters false o fetch fn fs ids).marked
      = (ids.map (fun i =>
          ((message_actions fetch fn fs i).map (action_marked o i)).sum)).sum ∧
    (apply_filters false o fetch fn fs ids).errors
      = ids.flatMap (fun i =>
          (message_actions fetch fn fs i).flatMap (action_errors o i)) :=
  ⟨apply_filters_moved o fetch fn fs ids,
   apply_filters_deleted o fetch fn fs ids,
   apply_filters_marked o fetch fn fs ids,
   apply_filters_errors o fetch fn fs ids⟩

end IMF
